import Mathlib

/-!
Verification of the AlpacaTracker notification-delivery engine.

Shallow embedding of the source files:
  `src/discord/embed-builder.js` (payload renderer),
  `src/discord/webhook-client.js` (delivery engine),
  `src/api/server-fetcher.js` (source fetcher),
  `src/storage/message-storage.js` (message-id store),
  `src/tracker.js` (cycle controller).

JavaScript machine numbers are modelled as `Nat`/`Int` (all quantities in
play are small nonnegative integers, and the comparator arithmetic is
exact); `Math.round` of a nonnegative rational is modelled exactly;
fallible HTTP calls are modelled by explicit outcome parameters; the
mutable `Map`s are modelled as lookup functions or association lists.
-/

namespace AlpacaTracker

/-- Model of `Math.round (num / den)` for natural `num` and positive `den`:
round-half-up of a nonnegative rational, i.e. `⌊num/den + 1/2⌋`. -/
def jsRound (num den : Nat) : Nat := (2 * num + den) / (2 * den)

/-- JavaScript `n || d` on nonnegative numbers: `0` is falsy, so the
default `d` is used exactly when `n = 0`. -/
def jsOr (n d : Nat) : Nat := if n = 0 then d else n

/-- One entry of `serverData.humanData`: `{name, score, time}`.
The `|| 0` defaults applied by the source to `score` and `time` are
absorbed into the field values. -/
structure PlayerRecord where
  name : String
  score : Int
  time : Int
deriving DecidableEq

/-- The fields of the fetched server state that the renderer reads. -/
structure ServerData where
  numHumans : Nat
  maxClients : Nat
  humanData : List PlayerRecord
deriving DecidableEq

/-- Source: `const maxPlayers = serverData.maxClients || 24;`
(embed-builder.js line 29 / monitor.js line 221). -/
def maxPlayers (sd : ServerData) : Nat := jsOr sd.maxClients 24

/-- Source: `Math.round((playerCount / maxPlayers) * 100)` (embed-builder.js line 31). -/
def capacityPercent (sd : ServerData) : Nat :=
  jsRound (sd.numHumans * 100) (maxPlayers sd)

/-- Modelled from the spec: `round(100 * humanCount / max(maxCapacity,1))`,
the capacity formula the spec states.  Kept separate from
`capacityPercent` (which embeds the source) so the two can be compared. -/
def capacityPercentSpec (sd : ServerData) : Nat :=
  jsRound (sd.numHumans * 100) (max sd.maxClients 1)

/-- Source: `Math.round((playerCount / maxPlayers) * progressBarLength)` with
`progressBarLength = 40` (embed-builder.js lines 33–36). -/
def filledBars (sd : ServerData) : Nat :=
  jsRound (sd.numHumans * 40) (maxPlayers sd)

/-- Source: `progressBarLength - filledBars` (embed-builder.js line 38).
Under the claims' hypothesis `numHumans ≤ maxClients` the subtraction
never truncates (`filledBars ≤ 40`). -/
def unfilledBars (sd : ServerData) : Nat := 40 - filledBars sd

/-- Model of `'c'.repeat(n)` for a one-character string. -/
def strRepeat (c : Char) (n : Nat) : String := String.mk (List.replicate n c)

/-- Source: `'█'.repeat(filledBars) + '░'.repeat(40 - filledBars)`
(embed-builder.js lines 37–38). -/
def progressBar (sd : ServerData) : String :=
  strRepeat '█' (filledBars sd) ++ strRepeat '░' (40 - filledBars sd)

/-- Source: `EmbedBuilder.formatTime` (embed-builder.js lines 2–16). -/
def formatTime (seconds : Nat) : String :=
  if seconds = 0 then "0s"
  else
    let hours := seconds / 3600
    let minutes := seconds % 3600 / 60
    let remainingSeconds := seconds % 60
    let parts :=
      (if 0 < hours then [toString hours ++ "h"] else []) ++
      (if 0 < minutes then [toString minutes ++ "m"] else [])
    let parts :=
      if 0 < remainingSeconds ∨ parts = []
      then parts ++ [toString remainingSeconds ++ "s"]
      else parts
    String.intercalate " " parts

/-- The tokens for exactly the nonzero units of the hours/minutes/seconds
decomposition of `seconds` — the spec's "emit only the non-zero higher
units while always emitting the lowest populated unit". -/
def nonzeroUnitTokens (seconds : Nat) : List String :=
  (if 0 < seconds / 3600 then [toString (seconds / 3600) ++ "h"] else []) ++
  (if 0 < seconds % 3600 / 60 then [toString (seconds % 3600 / 60) ++ "m"] else []) ++
  (if 0 < seconds % 60 then [toString (seconds % 60) ++ "s"] else [])

/-- C7: the duration formatter emits "0s" for zero input and otherwise
exactly the nonzero units of the hours/minutes/seconds decomposition,
and in particular `format(0)="0s"`, `format(45)="45s"`,
`format(3661)="1h 1m 1s"`, `format(7200)="2h"`. -/
theorem formatTime_spec :
    (formatTime 0 = "0s" ∧ formatTime 45 = "45s" ∧
      formatTime 3661 = "1h 1m 1s" ∧ formatTime 7200 = "2h") ∧
    ∀ s : Nat, s ≠ 0 → formatTime s = String.intercalate " " (nonzeroUnitTokens s) := by
  refine ⟨⟨rfl, rfl, rfl, rfl⟩, ?_⟩
  intro s hs
  unfold formatTime nonzeroUnitTokens
  rw [if_neg hs]
  rcases Nat.eq_zero_or_pos (s % 60) with h60 | h60
  · have hne : ¬ (0 < s % 60) := by omega
    rcases Nat.eq_zero_or_pos (s / 3600) with hh | hh
    · rcases Nat.eq_zero_or_pos (s % 3600 / 60) with hm | hm
      · exfalso; omega
      · simp only [hh, hm, h60, if_neg (lt_irrefl 0), if_pos hm]
        simp
    · rcases Nat.eq_zero_or_pos (s % 3600 / 60) with hm | hm
      · simp only [hh, hm, h60, if_neg (lt_irrefl 0), if_pos hh]
        simp
      · simp only [hh, hm, h60, if_pos hh, if_pos hm, if_neg (lt_irrefl 0)]
        simp
  · simp only [if_pos h60]
    rcases Nat.eq_zero_or_pos (s / 3600) with hh | hh <;>
      rcases Nat.eq_zero_or_pos (s % 3600 / 60) with hm | hm <;>
        simp [hh, hm, h60, Nat.pos_iff_ne_zero]

/-- C7 witness: the general clause instantiated at 61 seconds. -/
theorem formatTime_spec_witness :
    (61 : Nat) ≠ 0 ∧ formatTime 61 = String.intercalate " " (nonzeroUnitTokens 61) :=
  ⟨by decide, formatTime_spec.2 61 (by decide)⟩

/-- C4 counterexample: at `numHumans = 1`, `maxClients = 0` the source
divides by the default `24` (giving 4%), not by `max(maxCapacity,1) = 1`
(which would give 100%), so the claimed formula fails. -/
theorem capacityPercent_claim_counterexample :
    capacityPercent ⟨1, 0, []⟩ = 4 ∧ capacityPercentSpec ⟨1, 0, []⟩ = 100 ∧
      capacityPercent ⟨1, 0, []⟩ ≠ capacityPercentSpec ⟨1, 0, []⟩ := by
  refine ⟨rfl, rfl, ?_⟩
  decide

/-- C4 amended: the rendered capacity percentage equals
`round(100 * humanCount / max(maxCapacity,1))` whenever `maxCapacity ≥ 1`;
when `maxCapacity` is 0 (or absent) the divisor used is the default 24. -/
theorem capacityPercent_amended :
    ∀ sd : ServerData,
      (1 ≤ sd.maxClients → capacityPercent sd = capacityPercentSpec sd) ∧
      (sd.maxClients = 0 → capacityPercent sd = jsRound (sd.numHumans * 100) 24) := by
  intro sd
  constructor
  · intro h1
    have hmax : max sd.maxClients 1 = sd.maxClients := by omega
    have hor : jsOr sd.maxClients 24 = sd.maxClients := by
      unfold jsOr; rw [if_neg (by omega)]
    unfold capacityPercent capacityPercentSpec maxPlayers
    rw [hmax, hor]
  · intro h0
    unfold capacityPercent maxPlayers jsOr
    rw [if_pos h0]

/-- C4 witness: the amended statement instantiated at a populated server
(10 humans of 20 slots) and at an absent capacity (3 humans, capacity 0). -/
theorem capacityPercent_amended_witness :
    ((1 ≤ (20 : Nat) ∧ capacityPercent ⟨10, 20, []⟩ = capacityPercentSpec ⟨10, 20, []⟩) ∧
      ((0 : Nat) = 0 ∧ capacityPercent ⟨3, 0, []⟩ = jsRound (3 * 100) 24)) ∧
    capacityPercent ⟨10, 20, []⟩ = 50 ∧ capacityPercent ⟨3, 0, []⟩ = 13 :=
  ⟨⟨⟨by decide, (capacityPercent_amended ⟨10, 20, []⟩).1 (by decide)⟩,
    ⟨rfl, (capacityPercent_amended ⟨3, 0, []⟩).2 rfl⟩⟩, rfl, rfl⟩

/-- Bound: `round((h/m) * k) ≤ k` whenever `h ≤ m` and `m > 0`. -/
lemma jsRound_mul_le {h m : Nat} (k : Nat) (hle : h ≤ m) (hm : 0 < m) :
    jsRound (h * k) m ≤ k := by
  unfold jsRound
  have hmul : h * k ≤ m * k := Nat.mul_le_mul_right k hle
  have hlt : (2 * (h * k) + m) / (2 * m) < k + 1 := by
    rw [Nat.div_lt_iff_lt_mul (by omega)]
    have expand : (k + 1) * (2 * m) = 2 * (m * k) + 2 * m := by ring
    rw [expand]
    omega
  omega

/-- Value: `round(0 / den) = 0`. -/
lemma jsRound_zero (den : Nat) : jsRound 0 den = 0 := by
  unfold jsRound
  rcases Nat.eq_zero_or_pos den with h | h
  · subst h; rfl
  · rw [Nat.mul_zero, Nat.zero_add]
    exact Nat.div_eq_of_lt (by omega)

/-- C5: for `humanCount ≤ maxCapacity` the capacity percentage is between
0 and 100, the bar is 40 glyphs (`filledBars + unfilledBars = 40`, filled
glyphs then unfilled glyphs), and (for `maxCapacity ≥ 1`)
`filledBars = round(40 * humanCount / maxCapacity)`. -/
theorem progressBar_spec :
    ∀ sd : ServerData, sd.numHumans ≤ sd.maxClients →
      capacityPercent sd ≤ 100 ∧
      filledBars sd ≤ 40 ∧
      filledBars sd + unfilledBars sd = 40 ∧
      progressBar sd = strRepeat '█' (filledBars sd) ++ strRepeat '░' (unfilledBars sd) ∧
      (1 ≤ sd.maxClients → filledBars sd = jsRound (sd.numHumans * 40) sd.maxClients) := by
  intro sd hle
  have hcap : capacityPercent sd ≤ 100 := by
    unfold capacityPercent maxPlayers jsOr
    rcases Nat.eq_zero_or_pos sd.maxClients with hm0 | hm0
    · rw [if_pos hm0]
      have h0 : sd.numHumans = 0 := by omega
      rw [h0, Nat.zero_mul, jsRound_zero]
      exact Nat.zero_le _
    · rw [if_neg (by omega)]
      exact jsRound_mul_le 100 hle hm0
  have hfill : filledBars sd ≤ 40 := by
    unfold filledBars maxPlayers jsOr
    rcases Nat.eq_zero_or_pos sd.maxClients with hm0 | hm0
    · rw [if_pos hm0]
      have h0 : sd.numHumans = 0 := by omega
      rw [h0, Nat.zero_mul, jsRound_zero]
      exact Nat.zero_le _
    · rw [if_neg (by omega)]
      exact jsRound_mul_le 40 hle hm0
  refine ⟨hcap, hfill, ?_, rfl, ?_⟩
  · unfold unfilledBars
    omega
  · intro h1
    unfold filledBars maxPlayers jsOr
    rw [if_neg (by omega)]

/-- C5 witness: the statement instantiated at 12 humans of 24 slots. -/
theorem progressBar_spec_witness :
    (12 : Nat) ≤ 24 ∧
      (capacityPercent ⟨12, 24, []⟩ ≤ 100 ∧
        filledBars ⟨12, 24, []⟩ ≤ 40 ∧
        filledBars ⟨12, 24, []⟩ + unfilledBars ⟨12, 24, []⟩ = 40 ∧
        progressBar ⟨12, 24, []⟩ =
          strRepeat '█' (filledBars ⟨12, 24, []⟩) ++ strRepeat '░' (unfilledBars ⟨12, 24, []⟩) ∧
        (1 ≤ (24 : Nat) → filledBars ⟨12, 24, []⟩ = jsRound (12 * 40) 24)) :=
  ⟨by decide, progressBar_spec ⟨12, 24, []⟩ (by decide)⟩

/-- The sort comparator of embed-builder.js lines 63–71:
descending score; ties at score 0 by descending time, ties at a nonzero
score by ascending time. -/
def playerCmp (a b : PlayerRecord) : Int :=
  if b.score ≠ a.score then b.score - a.score
  else if a.score = 0 ∧ b.score = 0 then b.time - a.time
  else a.time - b.time

/-- Whether `a` may precede `b` in the sorted output: the comparator is ≤ 0. -/
def playerLE (a b : PlayerRecord) : Bool := playerCmp a b ≤ 0

/-- Source: `serverData.humanData?.filter?.(p => p.name?.trim())`
(embed-builder.js lines 59–60): keep only players whose trimmed name is
nonempty, i.e. whose name contains at least one non-whitespace
character. -/
def namedPlayers (l : List PlayerRecord) : List PlayerRecord :=
  l.filter fun p => p.name.data.any fun c => !c.isWhitespace

/-- Source: `players.sort((a, b) => ...)` (embed-builder.js lines 63–71), with the
ECMAScript-mandated stable sort modelled by the stable `List.mergeSort`. -/
def sortPlayers (l : List PlayerRecord) : List PlayerRecord :=
  (namedPlayers l).mergeSort playerLE

/-- The ordering the spec asks for between a player `a` rendered above a
player `b`: `a`'s score is at least `b`'s, and on a score tie the tie is
broken by descending time at score 0 and ascending time otherwise. -/
def playerOrder (a b : PlayerRecord) : Prop :=
  b.score ≤ a.score ∧
    (b.score = a.score → if a.score = 0 then b.time ≤ a.time else a.time ≤ b.time)

lemma playerCmp_le_zero_iff (a b : PlayerRecord) :
    playerCmp a b ≤ 0 ↔ playerOrder a b := by
  unfold playerCmp playerOrder
  split_ifs <;> omega

lemma playerLE_iff (a b : PlayerRecord) : playerLE a b = true ↔ playerOrder a b := by
  unfold playerLE
  rw [decide_eq_true_eq]
  exact playerCmp_le_zero_iff a b

lemma playerCmp_antisymm (a b : PlayerRecord) : playerCmp b a = -playerCmp a b := by
  unfold playerCmp
  split_ifs <;> omega

lemma playerLE_trans (a b c : PlayerRecord) :
    playerLE a b → playerLE b c → playerLE a c := by
  intro hab hbc
  rw [playerLE_iff] at *
  obtain ⟨hs1, ht1⟩ := hab
  obtain ⟨hs2, ht2⟩ := hbc
  refine ⟨le_trans hs2 hs1, fun heq => ?_⟩
  have hbs : b.score = a.score := le_antisymm (by omega) (by omega)
  have h1 := ht1 hbs
  have h2 := ht2 (by omega)
  by_cases h0 : a.score = 0
  · rw [if_pos h0] at h1 ⊢
    rw [if_pos (by omega : b.score = 0)] at h2
    omega
  · rw [if_neg h0] at h1 ⊢
    rw [if_neg (by omega : ¬ b.score = 0)] at h2
    omega

lemma playerLE_total (a b : PlayerRecord) : playerLE a b || playerLE b a := by
  unfold playerLE
  rw [playerCmp_antisymm]
  simp only [Bool.or_eq_true, decide_eq_true_eq]
  omega

unseal List.merge List.mergeSort in
/-- C6: the rendered player table is a permutation of the players with a
non-whitespace name, pairwise ordered by descending score with the spec's
tie-breaking (descending time at score 0, ascending time at nonzero
score); every rendered player has a non-whitespace name; and the concrete
input `[{s:0,t:10},{s:0,t:20},{s:5,t:3},{s:5,t:1}]` renders in the order
`[{s:5,t:1},{s:5,t:3},{s:0,t:20},{s:0,t:10}]`. -/
theorem sortPlayers_spec :
    (∀ l : List PlayerRecord,
      (sortPlayers l).Perm (namedPlayers l) ∧
      (sortPlayers l).Pairwise playerOrder ∧
      ∀ p ∈ sortPlayers l, ∃ c ∈ p.name.data, ¬ c.isWhitespace) ∧
    sortPlayers [⟨"A", 0, 10⟩, ⟨"B", 0, 20⟩, ⟨"C", 5, 3⟩, ⟨"D", 5, 1⟩] =
      [⟨"D", 5, 1⟩, ⟨"C", 5, 3⟩, ⟨"B", 0, 20⟩, ⟨"A", 0, 10⟩] := by
  constructor
  · intro l
    refine ⟨List.mergeSort_perm _ _, ?_, ?_⟩
    · have hs := List.sorted_mergeSort
        (fun a b c => playerLE_trans a b c) (fun a b => playerLE_total a b)
        (namedPlayers l)
      exact hs.imp fun h => (playerLE_iff _ _).mp h
    · intro p hp
      have hmem : p ∈ namedPlayers l := (List.mergeSort_perm _ _).mem_iff.mp hp
      have := List.of_mem_filter hmem
      simpa using this
  · rfl

/-- C6 witness: the universally quantified clause instantiated at the
concrete four-player roster (including one whitespace-named player that
must be dropped). -/
theorem sortPlayers_spec_witness :
    (sortPlayers [⟨" ", 9, 9⟩, ⟨"E", 1, 5⟩, ⟨"F", 1, 2⟩]).Perm
        (namedPlayers [⟨" ", 9, 9⟩, ⟨"E", 1, 5⟩, ⟨"F", 1, 2⟩]) ∧
      (sortPlayers [⟨" ", 9, 9⟩, ⟨"E", 1, 5⟩, ⟨"F", 1, 2⟩]).Pairwise playerOrder :=
  ⟨(sortPlayers_spec.1 _).1, (sortPlayers_spec.1 _).2.1⟩

/-! Delivery engine (`src/discord/webhook-client.js`)

The `WebhookClient`'s in-memory `lastMessageIds` `Map` and the
`MessageStorage`'s persisted file are modelled as lookup functions from
webhook URL to message id.  In the production wiring (tracker.js lines
31–34) the two objects share one `Map`, and every `setMessageId` /
`deleteMessageId` immediately rewrites the file from that map
(message-storage.js lines 178–186), so after each mutation the file is
the serialization of the in-memory map. -/

/-- The destination→message-id state: the in-memory map and the
persisted file image. -/
structure WebhookState where
  mem : String → Option String
  file : String → Option String

/-- Source: `this.lastMessageIds.delete(webhookUrl); this.messageStorage.deleteMessageId(webhookUrl)`
(webhook-client.js lines 57–60): remove the entry and persist. -/
def evictMessageId (st : WebhookState) (url : String) : WebhookState :=
  let mem' := fun u => if u = url then none else st.mem u
  { mem := mem', file := mem' }

/-- Source: `this.lastMessageIds.set(webhookUrl, data.id); this.messageStorage.setMessageId(...)`
(webhook-client.js lines 74–77): install the entry and persist. -/
def recordMessageId (st : WebhookState) (url id : String) : WebhookState :=
  let mem' := fun u => if u = url then some id else st.mem u
  { mem := mem', file := mem' }

/-- The outcome of the POST HTTP call: it either throws, or succeeds with
an optional `data.id` in the response. -/
abbrev PostOutcome := Except Unit (Option String)

/-- The post branch of `sendToWebhook` (webhook-client.js lines 64–88):
on a thrown POST the outer catch reports failure; on success a returned
`data.id` (if any) is recorded; the call reports success either way. -/
def postStep (url : String) (postRes : PostOutcome) (st : WebhookState) :
    Bool × WebhookState :=
  match postRes with
  | Except.error _ => (false, st)
  | Except.ok none => (true, st)
  | Except.ok (some id) => (true, recordMessageId st url id)

/-- Source: `WebhookClient.sendToWebhook` (webhook-client.js lines 37–89).
`patchOk` is the outcome of the PATCH call (only consulted when a
`lastMessageId` is on record), `postRes` the outcome of the POST call
(only consulted when the post step is reached). -/
def sendToWebhook (url : String) (patchOk : Bool) (postRes : PostOutcome)
    (st : WebhookState) : Bool × WebhookState :=
  match st.mem url with
  | some _ =>
    if patchOk then (true, st)
    else postStep url postRes (evictMessageId st url)
  | none => postStep url postRes st

/-- C1: with a recorded `lastMessageId`, a successful update leaves the
mapping unchanged and reports success; a failed update evicts the entry
(from the in-memory map and the persisted file) before the post step runs
on the evicted state, and a successful post carrying a message id then
installs that id in the map and the file. -/
theorem sendToWebhook_update_spec :
    ∀ (st : WebhookState) (url id : String) (patchOk : Bool) (postRes : PostOutcome),
      st.mem url = some id →
      (patchOk = true → sendToWebhook url patchOk postRes st = (true, st)) ∧
      (patchOk = false →
        sendToWebhook url patchOk postRes st = postStep url postRes (evictMessageId st url) ∧
        (evictMessageId st url).mem url = none ∧
        (evictMessageId st url).file url = none ∧
        ∀ newId, postRes = Except.ok (some newId) →
          (sendToWebhook url patchOk postRes st).1 = true ∧
          (sendToWebhook url patchOk postRes st).2.mem url = some newId ∧
          (sendToWebhook url patchOk postRes st).2.file url = some newId) := by
  intro st url id patchOk postRes hmem
  constructor
  · intro hp
    unfold sendToWebhook
    rw [hmem, hp]
    rfl
  · intro hp
    subst hp
    have hsend : sendToWebhook url false postRes st =
        postStep url postRes (evictMessageId st url) := by
      unfold sendToWebhook
      rw [hmem]
      rfl
    refine ⟨hsend, by simp [evictMessageId], by simp [evictMessageId], ?_⟩
    intro newId hpost
    subst hpost
    rw [hsend]
    unfold postStep recordMessageId evictMessageId
    simp

/-- C1 witness: the statement instantiated at a concrete state holding
message id "m1" for destination "wh", for both the successful-update and
the failed-update/successful-post paths. -/
theorem sendToWebhook_update_spec_witness :
    ((fun u => if u = "wh" then some "m1" else none) "wh" = some "m1") ∧
    (sendToWebhook "wh" true (Except.ok (some "m2"))
        ⟨fun u => if u = "wh" then some "m1" else none,
         fun u => if u = "wh" then some "m1" else none⟩ =
      (true, ⟨fun u => if u = "wh" then some "m1" else none,
              fun u => if u = "wh" then some "m1" else none⟩)) ∧
    ((sendToWebhook "wh" false (Except.ok (some "m2"))
        ⟨fun u => if u = "wh" then some "m1" else none,
         fun u => if u = "wh" then some "m1" else none⟩).2.mem "wh" = some "m2") := by
  have h1 := sendToWebhook_update_spec
    ⟨fun u => if u = "wh" then some "m1" else none,
     fun u => if u = "wh" then some "m1" else none⟩
    "wh" "m1" true (Except.ok (some "m2")) (by simp)
  have h2 := sendToWebhook_update_spec
    ⟨fun u => if u = "wh" then some "m1" else none,
     fun u => if u = "wh" then some "m1" else none⟩
    "wh" "m1" false (Except.ok (some "m2")) (by simp)
  exact ⟨by simp, h1.1 rfl, ((h2.2 rfl).2.2.2 "m2" rfl).2.1⟩

/-- C10: when the post step runs and the POST succeeds without a message
id in the response, the destination still counts as a success and no
mapping entry is installed: a destination with no recorded id keeps the
state completely unchanged, and a destination whose update just failed
ends with no entry on record, so the next cycle posts fresh. -/
theorem sendToWebhook_post_no_id_spec :
    ∀ (st : WebhookState) (url : String) (patchOk : Bool),
      (st.mem url = none →
        sendToWebhook url patchOk (Except.ok none) st = (true, st)) ∧
      (∀ id, st.mem url = some id → patchOk = false →
        (sendToWebhook url patchOk (Except.ok none) st).1 = true ∧
        (sendToWebhook url patchOk (Except.ok none) st).2.mem url = none ∧
        (sendToWebhook url patchOk (Except.ok none) st).2.file url = none) := by
  intro st url patchOk
  constructor
  · intro hmem
    unfold sendToWebhook
    rw [hmem]
    rfl
  · intro id hmem hp
    subst hp
    unfold sendToWebhook
    rw [hmem]
    unfold postStep evictMessageId
    simp

/-- C10 witness: instantiated at a fresh destination (no recorded id) and
at a destination whose update failed. -/
theorem sendToWebhook_post_no_id_spec_witness :
    (sendToWebhook "wh" true (Except.ok none) ⟨fun _ => none, fun _ => none⟩ =
      (true, ⟨fun _ => none, fun _ => none⟩)) ∧
    ((sendToWebhook "wh" false (Except.ok none)
        ⟨fun u => if u = "wh" then some "m1" else none,
         fun u => if u = "wh" then some "m1" else none⟩).2.mem "wh" = none) := by
  have h1 := sendToWebhook_post_no_id_spec ⟨fun _ => none, fun _ => none⟩ "wh" true
  have h2 := sendToWebhook_post_no_id_spec
    ⟨fun u => if u = "wh" then some "m1" else none,
     fun u => if u = "wh" then some "m1" else none⟩ "wh" false
  exact ⟨h1.1 rfl, (h2.2 "m1" (by simp) rfl).2.1⟩

/-- Source: `WebhookClient.sendDiscordNotification` (webhook-client.js lines
91–112): fan out to every destination, count the successes, and report
success iff at least one destination succeeded.  `send` gives each
destination's individual outcome (`sendToWebhook` never throws, so every
settled result is fulfilled).  Returns
`(overall success, successCount, totalCount)`. -/
def sendDiscordNotification (urls : List String) (send : String → Bool) :
    Bool × Nat × Nat :=
  let results := urls.map send
  let successCount := results.count true
  (decide (0 < successCount), successCount, urls.length)

/-- C2: every destination is attempted (one settled outcome per
destination, in order), `successCount` is the number of destinations whose
send succeeded, the overall result is success iff `successCount > 0`, and
with 3 destinations of which exactly 1 succeeds the result is success
with `successCount = 1`, `totalCount = 3`. -/
theorem sendDiscordNotification_spec :
    (∀ (urls : List String) (send : String → Bool),
      (sendDiscordNotification urls send).2.2 = urls.length ∧
      (urls.map send).length = urls.length ∧
      (sendDiscordNotification urls send).2.1 = (urls.filter send).length ∧
      ((sendDiscordNotification urls send).1 = true ↔
        0 < (sendDiscordNotification urls send).2.1)) ∧
    sendDiscordNotification ["wh1", "wh2", "wh3"] (fun u => u == "wh2") =
      (true, 1, 3) := by
  constructor
  · intro urls send
    refine ⟨rfl, by simp, ?_, by simp [sendDiscordNotification]⟩
    unfold sendDiscordNotification
    simp only [List.count_eq_countP, List.countP_eq_length_filter, List.filter_map]
    rw [List.length_map]
    have hfc : List.filter ((fun x => x == true) ∘ send) urls = List.filter send urls :=
      List.filter_congr fun x _ => by simp
    rw [hfc]
  · rfl

/-- C2 witness: the quantified clause instantiated at the three-destination
roster where only "wh2" succeeds, alongside the concrete aggregate. -/
theorem sendDiscordNotification_spec_witness :
    (sendDiscordNotification ["wh1", "wh2", "wh3"] (fun u => u == "wh2")).2.1 =
        (["wh1", "wh2", "wh3"].filter fun u => u == "wh2").length ∧
      sendDiscordNotification ["wh1", "wh2", "wh3"] (fun u => u == "wh2") = (true, 1, 3) :=
  ⟨(sendDiscordNotification_spec.1 ["wh1", "wh2", "wh3"] (fun u => u == "wh2")).2.2.1,
    sendDiscordNotification_spec.2⟩

/-! Source fetcher (`src/api/server-fetcher.js`)

`attempts i` is the outcome of the `i`-th HTTP GET (the call made with
`retryCount = i`).  The result triple is
`(outcome, new consecutiveErrors, number of endpoint invocations)`. -/

/-- Source: `ServerFetcher.fetchServerInfo` (server-fetcher.js lines 12–37):
try the request; on success reset `consecutiveErrors` to 0 and return the
data; on error retry while `retryCount < maxRetries`, else increment
`consecutiveErrors` and rethrow the last error. -/
def fetchServerInfo (maxRetries : Nat) (attempts : Nat → Except String Nat)
    (consecutiveErrors retryCount : Nat) : Except String Nat × Nat × Nat :=
  match attempts retryCount with
  | Except.ok d => (Except.ok d, 0, 1)
  | Except.error e =>
    if h : retryCount < maxRetries then
      let r := fetchServerInfo maxRetries attempts consecutiveErrors (retryCount + 1)
      (r.1, r.2.1, r.2.2 + 1)
    else
      (Except.error e, consecutiveErrors + 1, 1)
termination_by maxRetries - retryCount

lemma fetchServerInfo_eq (maxRetries : Nat) (attempts : Nat → Except String Nat)
    (consecutiveErrors retryCount : Nat) :
    fetchServerInfo maxRetries attempts consecutiveErrors retryCount =
      match attempts retryCount with
      | Except.ok d => (Except.ok d, 0, 1)
      | Except.error e =>
        if retryCount < maxRetries then
          let r := fetchServerInfo maxRetries attempts consecutiveErrors (retryCount + 1)
          (r.1, r.2.1, r.2.2 + 1)
        else
          (Except.error e, consecutiveErrors + 1, 1) := by
  rw [fetchServerInfo]
  rcases attempts retryCount with e | d
  · by_cases h : retryCount < maxRetries <;> simp [h]
  · rfl

lemma fetchServerInfo_ok {attempts : Nat → Except String Nat} {rc d : Nat}
    (maxRetries errs : Nat) (hA : attempts rc = Except.ok d) :
    fetchServerInfo maxRetries attempts errs rc = (Except.ok d, 0, 1) := by
  rw [fetchServerInfo_eq, hA]

lemma fetchServerInfo_error_retry {attempts : Nat → Except String Nat} {rc : Nat}
    {e : String} (maxRetries errs : Nat) (hA : attempts rc = Except.error e)
    (hlt : rc < maxRetries) :
    fetchServerInfo maxRetries attempts errs rc =
      ((fetchServerInfo maxRetries attempts errs (rc + 1)).1,
        (fetchServerInfo maxRetries attempts errs (rc + 1)).2.1,
        (fetchServerInfo maxRetries attempts errs (rc + 1)).2.2 + 1) := by
  rw [fetchServerInfo_eq, hA]
  simp [hlt]

lemma fetchServerInfo_error_stop {attempts : Nat → Except String Nat} {rc : Nat}
    {e : String} (maxRetries errs : Nat) (hA : attempts rc = Except.error e)
    (hge : ¬ rc < maxRetries) :
    fetchServerInfo maxRetries attempts errs rc = (Except.error e, errs + 1, 1) := by
  rw [fetchServerInfo_eq, hA]
  simp [hge]

/-- C3: with `maxRetries = 3` and every attempt failing, the endpoint is
invoked exactly 4 times, the call fails with the error of the last
(fourth) attempt, and the consecutive-failure counter is incremented by
one; and whenever a call returns success the counter comes back 0. -/
theorem fetchServerInfo_spec :
    (∀ (attempts : Nat → Except String Nat) (errs : Nat) (e3 : String),
      (∀ i, i ≤ 3 → ∃ e, attempts i = Except.error e) →
      attempts 3 = Except.error e3 →
      fetchServerInfo 3 attempts errs 0 = (Except.error e3, errs + 1, 4)) ∧
    (∀ (maxRetries : Nat) (attempts : Nat → Except String Nat) (errs rc d : Nat),
      (fetchServerInfo maxRetries attempts errs rc).1 = Except.ok d →
      (fetchServerInfo maxRetries attempts errs rc).2.1 = 0) := by
  constructor
  · intro attempts errs e3 hall he3
    obtain ⟨e0, he0⟩ := hall 0 (by omega)
    obtain ⟨e1, he1⟩ := hall 1 (by omega)
    obtain ⟨e2, he2⟩ := hall 2 (by omega)
    rw [fetchServerInfo_error_retry 3 errs he0 (by omega),
      fetchServerInfo_error_retry 3 errs he1 (by omega),
      fetchServerInfo_error_retry 3 errs he2 (by omega),
      fetchServerInfo_error_stop 3 errs he3 (by omega)]
  · intro maxRetries attempts errs rc d
    have key : ∀ (fuel rc : Nat), maxRetries - rc ≤ fuel → ∀ d : Nat,
        (fetchServerInfo maxRetries attempts errs rc).1 = Except.ok d →
        (fetchServerInfo maxRetries attempts errs rc).2.1 = 0 := by
      intro fuel
      induction fuel with
      | zero =>
        intro rc hle d h
        rcases hA : attempts rc with e | d2
        · rw [fetchServerInfo_error_stop maxRetries errs hA (by omega)] at h
          exact absurd h (by simp)
        · rw [fetchServerInfo_ok maxRetries errs hA]
      | succ n ih =>
        intro rc hle d h
        rcases hA : attempts rc with e | d2
        · by_cases hlt : rc < maxRetries
          · rw [fetchServerInfo_error_retry maxRetries errs hA hlt] at h ⊢
            exact ih (rc + 1) (by omega) d h
          · rw [fetchServerInfo_error_stop maxRetries errs hA hlt] at h
            exact absurd h (by simp)
        · rw [fetchServerInfo_ok maxRetries errs hA]
    exact key (maxRetries - rc) rc (le_refl _) d

/-- C3 witness: the exhaustion clause at a fetcher whose every attempt
fails with "timeout", and the reset clause at a fetcher whose first
attempt succeeds. -/
theorem fetchServerInfo_spec_witness :
    fetchServerInfo 3 (fun _ => Except.error "timeout") 7 0 =
        (Except.error "timeout", 7 + 1, 4) ∧
      (fetchServerInfo 3 (fun _ => Except.ok 5) 7 0).2.1 = 0 := by
  constructor
  · exact fetchServerInfo_spec.1 (fun _ => Except.error "timeout") 7 "timeout"
      (fun i _ => ⟨"timeout", rfl⟩) rfl
  · exact fetchServerInfo_spec.2 3 (fun _ => Except.ok 5) 7 0 5
      (by rw [fetchServerInfo_eq])

/-! Cycle controller (`src/tracker.js`) -/

/-- The process-wide cycle state read and written by `checkServer`. -/
structure TrackerState where
  isRunning : Bool
  lastNotificationTime : Option Nat
deriving DecidableEq

/-- Source: `this.isRunning = true;` (tracker.js line 83). -/
def beginCycle (st : TrackerState) : TrackerState := { st with isRunning := true }

/-- Source: the `finally` clause `this.isRunning = false` (tracker.js lines 94–96). -/
def endCycle (st : TrackerState) : TrackerState := { st with isRunning := false }

/-- The try-block body of `checkServer` (tracker.js lines 86–93) together
with `processServerData` (lines 51–75): on a fetched result deliver the
embed and record the notification time when delivery reported success; on
a fetch error fall through to the catch (which only logs / sends an error
notification and mutates no cycle state). -/
def cycleBody (st : TrackerState) (fetchRes : Except String Nat)
    (deliverOk : Bool) (now : Nat) : TrackerState :=
  match fetchRes with
  | Except.ok _ =>
    if deliverOk then { st with lastNotificationTime := some now } else st
  | Except.error _ => st

/-- Source: `AlpacaTracker.checkServer` (tracker.js lines 77–97).  Returns the
new state and whether the fetcher was invoked. -/
def checkServer (st : TrackerState) (fetchRes : Except String Nat)
    (deliverOk : Bool) (now : Nat) : TrackerState × Bool :=
  if st.isRunning then (st, false)
  else
    let st1 := beginCycle st
    let st2 := cycleBody st1 fetchRes deliverOk now
    (endCycle st2, true)

/-- C8: a trigger arriving while a cycle is running returns without
invoking the fetcher and changes nothing; a trigger arriving while idle
runs the cycle with `isRunning` set true at its start, and on exit —
fetch success or fetch failure alike — `isRunning` is false again. -/
theorem checkServer_spec :
    ∀ (st : TrackerState) (fetchRes : Except String Nat) (deliverOk : Bool) (now : Nat),
      (st.isRunning = true → checkServer st fetchRes deliverOk now = (st, false)) ∧
      (st.isRunning = false →
        (checkServer st fetchRes deliverOk now).2 = true ∧
        (beginCycle st).isRunning = true ∧
        checkServer st fetchRes deliverOk now =
          (endCycle (cycleBody (beginCycle st) fetchRes deliverOk now), true) ∧
        (checkServer st fetchRes deliverOk now).1.isRunning = false) := by
  intro st fetchRes deliverOk now
  constructor
  · intro h
    unfold checkServer
    rw [if_pos h]
  · intro h
    have hsend : checkServer st fetchRes deliverOk now =
        (endCycle (cycleBody (beginCycle st) fetchRes deliverOk now), true) := by
      unfold checkServer
      rw [if_neg (by simp [h])]
    refine ⟨by rw [hsend], rfl, hsend, by rw [hsend]; rfl⟩

/-- C8 witness: a busy state drops the trigger without running, and an
idle state runs and ends not-running, on a failing fetch and on a
succeeding fetch. -/
theorem checkServer_spec_witness :
    checkServer ⟨true, none⟩ (Except.error "down") false 0 = (⟨true, none⟩, false) ∧
      (checkServer ⟨false, none⟩ (Except.error "down") false 0).1.isRunning = false ∧
      (checkServer ⟨false, none⟩ (Except.ok 3) true 99).1.isRunning = false :=
  ⟨(checkServer_spec ⟨true, none⟩ (Except.error "down") false 0).1 rfl,
    ((checkServer_spec ⟨false, none⟩ (Except.error "down") false 0).2 rfl).2.2.2,
    ((checkServer_spec ⟨false, none⟩ (Except.ok 3) true 99).2 rfl).2.2.2⟩

/-! Message-ID store (`src/storage/message-storage.js`)

The JSON file is modelled as `Option (List (String × String))`: `none`
is a missing file, `some entries` the parsed object's key/value pairs in
order.  `JSON.stringify`/`JSON.parse` of a string→string object is the
identity on such entry lists (object keys are unique because they come
from a `Map`). -/

/-- Model of `Map.prototype.set` on an association list kept in insertion order:
replace the value if the key exists, else append. -/
def mapSet (m : List (String × String)) (k v : String) : List (String × String) :=
  if m.any fun kv => kv.1 == k then
    m.map fun kv => if kv.1 == k then (k, v) else kv
  else
    m ++ [(k, v)]

/-- Source: `MessageStorage.saveMessageIds` (message-storage.js lines 162–172):
`fs.writeFileSync(file, JSON.stringify(Object.fromEntries(map)))` — the
file now holds the map's entries. -/
def saveMessageIds (m : List (String × String)) : Option (List (String × String)) :=
  some m

/-- Source: `MessageStorage.loadMessageIds` (message-storage.js lines 141–160):
a missing file leaves the freshly constructed empty map; otherwise every
parsed entry is `Map.set` into it in order. -/
def loadMessageIds (file : Option (List (String × String))) :
    List (String × String) :=
  match file with
  | none => []
  | some entries => entries.foldl (fun m kv => mapSet m kv.1 kv.2) []

lemma foldl_mapSet_append (l : List (String × String)) :
    ∀ acc : List (String × String), (l.map Prod.fst).Nodup →
      (∀ k ∈ l.map Prod.fst, k ∉ acc.map Prod.fst) →
      l.foldl (fun m kv => mapSet m kv.1 kv.2) acc = acc ++ l := by
  induction l with
  | nil =>
    intro acc _ _
    simp
  | cons kv tl ih =>
    intro acc hnd hdisj
    obtain ⟨k, v⟩ := kv
    have hk : k ∉ acc.map Prod.fst := hdisj k (by simp)
    have hset : mapSet acc k v = acc ++ [(k, v)] := by
      unfold mapSet
      rw [if_neg]
      simp only [List.any_eq_true, beq_iff_eq, not_exists]
      intro kv2 hkv2
      exact hk (List.mem_map.mpr ⟨kv2, hkv2.1, hkv2.2⟩)
    have hnd2 : (tl.map Prod.fst).Nodup := by
      simp only [List.map_cons, List.nodup_cons] at hnd
      exact hnd.2
    have hknotin : k ∉ tl.map Prod.fst := by
      simp only [List.map_cons, List.nodup_cons] at hnd
      exact hnd.1
    have hdisj2 : ∀ k2 ∈ tl.map Prod.fst, k2 ∉ (acc ++ [(k, v)]).map Prod.fst := by
      intro k2 hk2
      simp only [List.map_append, List.mem_append, List.map_cons, List.map_nil,
        List.mem_singleton, not_or]
      refine ⟨hdisj k2 (by simp [hk2]), ?_⟩
      intro hEq
      subst hEq
      exact hknotin hk2
    simp only [List.foldl_cons, hset]
    rw [ih (acc ++ [(k, v)]) hnd2 hdisj2]
    simp

/-- C9: saving a mapping to the durable store and loading it back yields
the same mapping (keys are unique, coming from a `Map`). -/
theorem storeRoundTrip_spec :
    ∀ m : List (String × String), (m.map Prod.fst).Nodup →
      loadMessageIds (saveMessageIds m) = m := by
  intro m hnd
  have hload : loadMessageIds (saveMessageIds m) =
      m.foldl (fun acc kv => mapSet acc kv.1 kv.2) [] := rfl
  rw [hload, foldl_mapSet_append m [] hnd (by simp)]
  simp

/-- C9 witness: round trip of a concrete two-destination mapping. -/
theorem storeRoundTrip_spec_witness :
    (([("wh1", "a"), ("wh2", "b")] : List (String × String)).map Prod.fst).Nodup ∧
      loadMessageIds (saveMessageIds [("wh1", "a"), ("wh2", "b")]) =
        [("wh1", "a"), ("wh2", "b")] :=
  ⟨by decide, storeRoundTrip_spec _ (by decide)⟩

end AlpacaTracker
